import Mathlib

/-!
Shallow embedding of the marimo data-sources panel
(src/frontend/src/components/datasources/datasources.tsx).

This file embeds the logic of that component:

* the derived table ordering (`sortedTablesAtom`), embedded as `sortedTables`
  over a stable key sort (`sortByKey`, modelling lodash `sortBy`);
* the derived visible-connection list (`connectionsAtom`), embedded as
  `connectionsList` and `connectionsAtomRun`;
* snippet generation (the inner `getCode` of `handleAddTable`), embedded as
  `getCode`;
* the per-node expansion state of `DatabaseItem` and `SchemaItem`, embedded
  as a small event machine (`runNode`);
* the one-shot metadata fetch gates of `TableList` and `DatasetTableItem`,
  embedded as event machines (`runTableList`, `runTableItem`);
* the refresh-spinner timing of `handleRefreshConnection` in `Engine`,
  embedded on a discrete millisecond timeline (`isSpinning`).

React component-local state is modelled by explicit state records, and the
single-threaded event loop by a step function over a list of events.  The
body of an async effect up to its first await executes atomically in that
model, which matches the run-to-completion semantics of JavaScript.
-/

/-- A column of a data table (`DataTableColumn` from the kernel messages),
restricted to the fields this component reads. -/
structure DataTableColumn where
  name : String
  type : String
  deriving DecidableEq

/-- A data table (`DataTable` from the kernel messages), restricted to the
fields the embedded logic reads.  The field `source_type` is kept as an open
string so that values outside the handled set can be discussed;
`variable_name` is the optional declaring variable; `engine` is the engine
used by catalog snippets. -/
structure DataTable where
  name : String
  source_type : String
  engine : String
  variable_name : Option String
  columns : List DataTableColumn
  deriving DecidableEq

/-- A notebook variable (`Variable` from the variables state): its name and
the cells that declare it, in order. -/
structure Variable where
  name : String
  declaredBy : List String
  deriving DecidableEq

/-- The structure `SQLTableContext` from the data-source-connections
state. -/
structure SQLTableContext where
  engine : String
  database : String
  schema : String
  defaultSchema : Option String
  defaultDatabase : Option String
  deriving DecidableEq

/-- The structure `DatabaseSchema` from the kernel messages, restricted to
the fields the component reads. -/
structure DatabaseSchema where
  name : String
  tables : List DataTable
  deriving DecidableEq

/-- The structure `Database` from the kernel messages, restricted to the
fields the component reads. -/
structure Database where
  name : String
  schemas : List DatabaseSchema
  deriving DecidableEq

/-- The structure `DataSourceConnection` from the kernel messages,
restricted to the fields the component reads. -/
structure DataSourceConnection where
  name : String
  dialect : String
  databases : List Database
  default_schema : Option String
  default_database : Option String
  deriving DecidableEq

/-- lodash `sortBy` with a single integer-valued iteratee: a stable sort by
key, realized as an insertion sort with the non-strict comparison on keys
(insertion sort with this comparison is stable, like lodash `sortBy`). -/
def sortByKey {α : Type} (k : α → Int) (l : List α) : List α :=
  l.insertionSort (fun a b => k a ≤ k b)

/-- The JS truthiness test `!table.variable_name` from `sortedTablesAtom`:
true when the declaring variable is absent (undefined or null in JS,
modelled as `none`) or the empty string. -/
def hasNoVariableName (table : DataTable) : Bool :=
  match table.variable_name with
  | none => true
  | some vn => vn == ""

/-- The sort key of `sortedTablesAtom`:
no declaring variable (falsy `table.variable_name`) maps to `-1`; a
declaring variable not found among the notebook variables maps to `0`; a
first declaring cell absent from the notebook cell order (JS `indexOf`
returning `-1`, which includes the case of an undefined `declaredBy[0]`)
maps to `0`; otherwise the key is the ordinal position of the declaring cell
in `cellIds.inOrderIds`.  (`vars` stands for `variables` in the source, a
reserved word in Lean.) -/
def tableSortKey (vars : List Variable) (cellIds : List String)
    (table : DataTable) : Int :=
  match table.variable_name with
  | none => -1
  | some vn =>
    if vn == "" then -1
    else
      match vars.find? (fun v => v.name == vn) with
      | none => 0
      | some declVar =>
        match declVar.declaredBy.head? with
        | none => 0
        | some firstCell =>
          match cellIds.findIdx? (fun c => c == firstCell) with
          | none => 0
          | some index => (index : Int)

/-- The atom `sortedTablesAtom`: the notebook tables stably sorted by
`tableSortKey`. -/
def sortedTables (vars : List Variable) (cellIds : List String)
    (tables : List DataTable) : List DataTable :=
  sortByKey (tableSortKey vars cellIds) tables

/-- Membership test `INTERNAL_SQL_ENGINES.has(connection.name)`, with the
set of internal engine names (declared outside this slice) kept as a
parameter. -/
def isInternalEngine (internalEngines : List String)
    (c : DataSourceConnection) : Bool :=
  internalEngines.contains c.name

/-- One iteration of the for-loop in `connectionsAtom`: look the engine up
in the (copied) connections map and delete it when it has zero databases.
The map is keyed by connection name and is modelled as the list of its
values in insertion order, so `get` is `find?` by name and `delete` removes
the entries with that name. -/
def deleteEngineIfEmpty (acc : List DataSourceConnection)
    (engineName : String) : List DataSourceConnection :=
  match acc.find? (fun c => c.name == engineName) with
  | some connection =>
    if connection.databases.length = 0 then
      acc.filter (fun c => c.name != engineName)
    else acc
  | none => acc

/-- The for-loop of `connectionsAtom` over all internal engines. -/
def deleteEmptyInternalEngines (internalEngines : List String)
    (conns : List DataSourceConnection) : List DataSourceConnection :=
  internalEngines.foldl deleteEngineIfEmpty conns

/-- A filter characterization of the deletion loop: keep a connection unless
it is an internal engine with zero databases.  The lemma
`deleteEmptyInternalEngines_eq_filter` shows it agrees with
`deleteEmptyInternalEngines` on genuine maps (pairwise distinct names). -/
def visibleConnections (internalEngines : List String)
    (conns : List DataSourceConnection) : List DataSourceConnection :=
  conns.filter
    (fun c => !(isInternalEngine internalEngines c && c.databases.length == 0))

/-- The sort key of `connectionsAtom`: internal engines last. -/
def internalLastKey (internalEngines : List String)
    (c : DataSourceConnection) : Int :=
  if isInternalEngine internalEngines c then 1 else 0

/-- The atom `connectionsAtom`: delete zero-database internal engines, then
stably sort the remaining connections with internal engines last. -/
def connectionsList (internalEngines : List String)
    (conns : List DataSourceConnection) : List DataSourceConnection :=
  sortByKey (internalLastKey internalEngines)
    (deleteEmptyInternalEngines internalEngines conns)

/-- The atom `connectionsAtom` as a state transformer over the shared
connections map: the derivation works on a copy
(`new Map(get(dataConnectionsMapAtom))`), so the shared map it returns is
the one it was given.  The first component is the derived visible list, the
second the shared map after evaluation. -/
def connectionsAtomRun (internalEngines : List String)
    (shared : List DataSourceConnection) :
    List DataSourceConnection × List DataSourceConnection :=
  let dataConnections := shared
  let dataConnections := deleteEmptyInternalEngines internalEngines dataConnections
  (sortByKey (internalLastKey internalEngines) dataConnections, shared)

/-- Modelled from the spec: `sqlCode` (imported from `./utils`, whose source
is not part of this slice) produces a dialect-appropriate
select-the-given-columns query snippet over the table, qualified by the SQL
table context when one is present.  Only the fact that it yields an
ordinary (non-aborting) snippet string matters below. -/
def sqlCode (table : DataTable) (columnName : String)
    (sqlTableContext : Option SQLTableContext) : String :=
  let target :=
    match sqlTableContext with
    | some ctx =>
      (if ctx.database == "" then "" else ctx.database ++ ".") ++
        (if ctx.schema == "" then "" else ctx.schema ++ ".") ++ table.name
    | none => table.name
  "_df = mo.sql(SELECT " ++ columnName ++ " FROM " ++ target ++ ")"

/-- The inner `getCode` of `handleAddTable`.  A catalog table yields a
`load_table` call whose identifier is qualified by the database of the
context when that is truthy (`sqlTableContext?.database ? ... : table.name`,
so a present context with an empty database name does not qualify); any
other table with a SQL context yields the `sqlCode` snippet; without a
context, a local table yields `mo.ui.table(...)` and the duckdb and
connection kinds yield the `sqlCode` snippet (the switch cases share one
body in the source).

Modelled from the spec: `logNever` (imported from the assertNever utils,
whose source is not part of this slice) is the programming-error signal for
an unreachable variant, treated per the spec as a fatal assertion; it is
embedded as an `Except.error`, after which the source line returning an
empty string is unreachable. -/
def getCode (table : DataTable) (sqlTableContext : Option SQLTableContext) :
    Except String String :=
  if table.source_type == "catalog" then
    let identifier :=
      match sqlTableContext with
      | some ctx =>
        if ctx.database == "" then table.name
        else ctx.database ++ "." ++ table.name
      | none => table.name
    Except.ok (table.engine ++ ".load_table(\"" ++ identifier ++ "\")")
  else if sqlTableContext.isSome then
    Except.ok (sqlCode table "*" sqlTableContext)
  else
    if table.source_type == "local" then
      Except.ok ("mo.ui.table(" ++ table.name ++ ")")
    else if table.source_type == "duckdb" then
      Except.ok (sqlCode table "*" sqlTableContext)
    else if table.source_type == "connection" then
      Except.ok (sqlCode table "*" sqlTableContext)
    else
      Except.error ("logNever: unhandled source_type " ++ table.source_type)

/-- The source types handled by the case analysis in `getCode`. -/
def handledSourceTypes : List String :=
  ["catalog", "local", "duckdb", "connection"]

/-- Component-local state of a `DatabaseItem` or `SchemaItem` node. -/
structure ExpandState where
  isExpanded : Bool
  isSelected : Bool
  deriving DecidableEq

/-- Both flags start as `useState(false)`. -/
def initialExpandState : ExpandState := ⟨false, false⟩

/-- The `onSelect` handler of the node: flip both flags. -/
def onSelectNode (s : ExpandState) : ExpandState :=
  ⟨!s.isExpanded, !s.isSelected⟩

/-- The body of the `useEffect` of the node: `setIsExpanded(hasSearch)`. -/
def onHasSearchChange (hasSearch : Bool) (s : ExpandState) : ExpandState :=
  { s with isExpanded := hasSearch }

/-- Events a `DatabaseItem` or `SchemaItem` node sees: a manual select, or a
change of the global `hasSearch` prop. -/
inductive NodeEvent where
  | select
  | setSearch (hasSearch : Bool)
  deriving DecidableEq

/-- One step of the node lifecycle: the second component tracks the current
`hasSearch` prop; the effect (dependency array `[hasSearch]`) runs exactly
when that prop changes. -/
def nodeStep (s : ExpandState × Bool) (e : NodeEvent) : ExpandState × Bool :=
  match e with
  | NodeEvent.select => (onSelectNode s.1, s.2)
  | NodeEvent.setSearch h =>
    (if h == s.2 then s.1 else onHasSearchChange h s.1, h)

/-- Run a node from mount (`isExpanded = false`, no search) through a list
of events. -/
def runNode (events : List NodeEvent) : ExpandState × Bool :=
  events.foldl nodeStep (initialExpandState, false)

/-- Component-local state of a `TableList` node, together with the tables it
sees for its context key (its `tables` prop, fed from shared state) and a
ghost counter of fetches actually issued. -/
structure TableListState where
  tables : List DataTable
  tablesRequested : Bool
  tablesLoading : Bool
  error : Option String
  fetchCount : Nat
  deriving DecidableEq

/-- A freshly mounted `TableList` for a schema with no known tables. -/
def initTableList : TableListState :=
  ⟨[], false, false, none, 0⟩

/-- Events a `TableList` node sees: a (re-)render evaluating the
`useAsyncData` effect, or the resolution of the in-flight fetch, carrying
`previewTableList?.tables` (`none` models absent table data). -/
inductive TableListEvent where
  | render
  | resolve (resp : Option (List DataTable))
  deriving DecidableEq

/-- The `useAsyncData` effect body of `TableList` up to its await: when the
node has no tables, a SQL context is present and no fetch was requested yet,
synchronously set the requested and loading flags and issue the fetch
(`hasCtx` is the presence of `sqlTableContext`, fixed per node instance). -/
def tableListRender (hasCtx : Bool) (s : TableListState) : TableListState :=
  if s.tables.length == 0 && hasCtx && !s.tablesRequested then
    { s with
      tablesRequested := true
      tablesLoading := true
      fetchCount := s.fetchCount + 1 }
  else s

/-- The continuation of the effect after the await: on absent table data,
clear the loading flag and throw (`useAsyncData` turns the throw into the
node-local error state); otherwise merge the returned tables into shared
state (`addTableList`, replace-by-key, so the `tables` prop of the node
becomes the response) and clear the loading flag.  It only runs for the
fetch this node issued. -/
def tableListResolve (resp : Option (List DataTable)) (s : TableListState) :
    TableListState :=
  if s.tablesLoading then
    match resp with
    | none =>
      { s with tablesLoading := false, error := some "No tables available" }
    | some ts => { s with tables := ts, tablesLoading := false }
  else s

/-- One step of a `TableList` node. -/
def tableListStep (hasCtx : Bool) (s : TableListState) (e : TableListEvent) :
    TableListState :=
  match e with
  | TableListEvent.render => tableListRender hasCtx s
  | TableListEvent.resolve resp => tableListResolve resp s

/-- Run a `TableList` node from mount through a list of events. -/
def runTableList (hasCtx : Bool) (events : List TableListEvent) :
    TableListState :=
  events.foldl (tableListStep hasCtx) initTableList

/-- Component-local state of a `DatasetTableItem` node: the table columns as
seen through shared state, the expansion flag, the one-shot
`tableDetailsRequested` flag, the in-flight flag, and a ghost counter of
fetches actually issued. -/
structure TableItemState where
  columns : List DataTableColumn
  isExpanded : Bool
  tableDetailsRequested : Bool
  detailsLoading : Bool
  error : Option String
  fetchCount : Nat
  deriving DecidableEq

/-- A freshly mounted `DatasetTableItem` for a table with no known
columns. -/
def initTableItem : TableItemState :=
  ⟨[], false, false, false, none, 0⟩

/-- Events a `DatasetTableItem` node sees: a select toggling expansion, a
(re-)render, or the resolution of the in-flight fetch carrying
`previewTable?.table` (`none` models absent table details). -/
inductive TableItemEvent where
  | toggle
  | render
  | resolve (resp : Option DataTable)
  deriving DecidableEq

/-- The `useAsyncData` effect body of `DatasetTableItem` up to its await:
when the node is expanded, `table.columns` is empty (`tableDetailsExist` is
false), a SQL context is present and no fetch was requested yet,
synchronously set the requested flag and issue the fetch. -/
def tableItemRender (hasCtx : Bool) (s : TableItemState) : TableItemState :=
  if s.isExpanded && s.columns.length == 0 && hasCtx
      && !s.tableDetailsRequested then
    { s with
      tableDetailsRequested := true
      detailsLoading := true
      fetchCount := s.fetchCount + 1 }
  else s

/-- The continuation after the await: on absent table details throw
("No table details available"); otherwise merge the table (`addTable`,
replace-by-key) so `table.columns` of the node becomes the columns of the
response. -/
def tableItemResolve (resp : Option DataTable) (s : TableItemState) :
    TableItemState :=
  if s.detailsLoading then
    match resp with
    | none =>
      { s with
        detailsLoading := false
        error := some "No table details available" }
    | some t => { s with columns := t.columns, detailsLoading := false }
  else s

/-- One step of a `DatasetTableItem` node.  The effect has dependency array
`[isExpanded, tableDetailsExist]`; evaluating it after every event is a
superset of the schedules React can produce, and the effect leaves the
state unchanged when its guard fails. -/
def tableItemStep (hasCtx : Bool) (s : TableItemState) (e : TableItemEvent) :
    TableItemState :=
  match e with
  | TableItemEvent.toggle =>
    tableItemRender hasCtx { s with isExpanded := !s.isExpanded }
  | TableItemEvent.render => tableItemRender hasCtx s
  | TableItemEvent.resolve resp => tableItemResolve resp s

/-- Run a `DatasetTableItem` node from mount through a list of events. -/
def runTableItem (hasCtx : Bool) (events : List TableItemEvent) :
    TableItemState :=
  events.foldl (tableItemStep hasCtx) initTableItem

/-- The handler `handleRefreshConnection` on a discrete millisecond timeline
starting at the click: `setIsSpinning(true)` runs at time `0`, the awaited
`previewDataSourceConnection` request resolves at time `latency`, and the
`setTimeout(() => setIsSpinning(false), 500)` scheduled at resolution clears
the flag at `latency + 500`. -/
def spinnerOffTime (latency : Nat) : Nat := latency + 500

/-- Whether the refresh icon is spinning at time `t` after the click, for a
request that resolves at time `latency`. -/
def isSpinning (latency t : Nat) : Bool := t < spinnerOffTime latency

/-- Concrete tables, variables and cell order realizing the worked example
of the spec: table A declared by variable x in the cell at position 2,
table B with no declaring variable, table C declared by variable y in the
cell at position 1. -/
def exTableA : DataTable := ⟨"A", "local", "", some "x", []⟩

/-- Table B of the worked example: no declaring variable. -/
def exTableB : DataTable := ⟨"B", "local", "", none, []⟩

/-- Table C of the worked example: declared by variable y. -/
def exTableC : DataTable := ⟨"C", "local", "", some "y", []⟩

/-- Variables of the worked example: x declared in cell c2, y in cell c1. -/
def exVariables : List Variable := [⟨"x", ["c2"]⟩, ⟨"y", ["c1"]⟩]

/-- Notebook cell order of the worked example. -/
def exCellOrder : List String := ["c0", "c1", "c2"]

/-- A table whose source kind lies outside the handled set. -/
def mysteryTable : DataTable := ⟨"t", "mystery", "con", none, []⟩

/-- A catalog table named t, on engine con. -/
def catalogTableT : DataTable := ⟨"t", "catalog", "con", none, []⟩

/-- A local in-memory table named df. -/
def localTableDf : DataTable := ⟨"df", "local", "", none, []⟩

/-- A SQL table context under database d. -/
def ctxUnderD : SQLTableContext := ⟨"con", "d", "public", none, none⟩

/-- A user-defined connection with one database. -/
def userConn : DataSourceConnection :=
  ⟨"user1", "postgres", [⟨"db", []⟩], none, none⟩

/-- An internal engine with zero databases. -/
def internalEmptyConn : DataSourceConnection :=
  ⟨"eng", "duckdb", [], none, none⟩

/-- An internal engine with one database. -/
def internalNonEmptyConn : DataSourceConnection :=
  ⟨"eng2", "duckdb", [⟨"db", []⟩], none, none⟩

/-- Stability of `orderedInsert` under the non-strict key comparison:
filtering the insertion at any key value either prepends the inserted
element (when it has that key) or leaves the filter unchanged. -/
theorem filter_orderedInsert_key {α : Type} (k : α → Int) (v : Int)
    (x : α) (l : List α) :
    (List.orderedInsert (fun a b => k a ≤ k b) x l).filter (fun y => k y == v)
      = if k x == v then x :: l.filter (fun y => k y == v)
        else l.filter (fun y => k y == v) := by
  induction l with
  | nil => simp [List.orderedInsert, List.filter_cons]
  | cons b bs ih =>
    by_cases hxb : k x ≤ k b
    · rw [List.orderedInsert, if_pos hxb]
      by_cases hxv : (k x == v) = true <;> simp [List.filter_cons, hxv]
    · rw [List.orderedInsert, if_neg hxb, List.filter_cons]
      by_cases hxv : (k x == v) = true
      · have hbv : (k b == v) = false := by
          rw [beq_eq_false_iff_ne]
          rw [beq_iff_eq] at hxv
          intro hbv
          exact hxb (by omega)
        simp [hbv, ih, hxv, List.filter_cons]
      · simp only [Bool.not_eq_true] at hxv
        simp [ih, hxv, List.filter_cons]

/-- Stability of `sortByKey`: the elements at any fixed key value appear in
the output exactly as in the input. -/
theorem filter_sortByKey {α : Type} (k : α → Int) (v : Int) (l : List α) :
    (sortByKey k l).filter (fun y => k y == v)
      = l.filter (fun y => k y == v) := by
  induction l with
  | nil => rfl
  | cons x xs ih =>
    rw [sortByKey, List.insertionSort, filter_orderedInsert_key]
    rw [show List.insertionSort (fun a b => k a ≤ k b) xs = sortByKey k xs from
      rfl]
    by_cases hxv : (k x == v) = true <;> simp [hxv, ih, List.filter_cons]

/-- Sortedness of `sortByKey`: keys are non-decreasing along the output. -/
theorem sortByKey_sorted {α : Type} (k : α → Int) (l : List α) :
    (sortByKey k l).Pairwise (fun a b => k a ≤ k b) := by
  haveI : IsTotal α (fun a b => k a ≤ k b) := ⟨fun a b => le_total (k a) (k b)⟩
  haveI : IsTrans α (fun a b => k a ≤ k b) := ⟨fun _ _ _ h1 h2 => le_trans h1 h2⟩
  exact List.sorted_insertionSort _ l

/-- The output of `sortByKey` is a permutation of its input. -/
theorem sortByKey_perm {α : Type} (k : α → Int) (l : List α) :
    (sortByKey k l).Perm l :=
  List.perm_insertionSort _ l

/-- A list already sorted by key is left unchanged by `sortByKey`. -/
theorem sortByKey_of_sorted {α : Type} {k : α → Int} {l : List α}
    (h : l.Pairwise (fun a b => k a ≤ k b)) : sortByKey k l = l :=
  List.Sorted.insertionSort_eq h

/-- A list sorted by a key taking only the values 0 and 1 is its key-0 part
followed by its key-1 part. -/
theorem sorted_zero_one_decomposition {α : Type} {k : α → Int} :
    ∀ {l : List α}, l.Pairwise (fun a b => k a ≤ k b) →
      (∀ x ∈ l, k x = 0 ∨ k x = 1) →
      l = l.filter (fun x => k x == 0) ++ l.filter (fun x => k x == 1) := by
  intro l
  induction l with
  | nil => intro _ _; rfl
  | cons x xs ih =>
    intro hp hk
    have hx := hk x (List.mem_cons_self x xs)
    have hxs : ∀ y ∈ xs, k y = 0 ∨ k y = 1 :=
      fun y hy => hk y (List.mem_cons_of_mem x hy)
    have hle : ∀ y ∈ xs, k x ≤ k y := (List.pairwise_cons.mp hp).1
    have htail := ih (List.pairwise_cons.mp hp).2 hxs
    cases hx with
    | inl h0 =>
      simp only [List.filter_cons, h0]
      norm_num
      exact htail
    | inr h1 =>
      have h0s : xs.filter (fun y => k y == 0) = [] := by
        rw [List.filter_eq_nil_iff]
        intro y hy
        have := hle y hy
        rcases hxs y hy with h | h
        · exfalso; omega
        · simp [h]
      have h1s : xs.filter (fun y => k y == 1) = xs := by
        rw [List.filter_eq_self]
        intro y hy
        have := hle y hy
        rcases hxs y hy with h | h
        · exfalso; omega
        · simp [h]
      simp only [List.filter_cons, h1]
      norm_num [h0s, h1s]

/-- Stable sorting by a two-valued key is bucketing: the key-0 elements in
input order, then the key-1 elements in input order. -/
theorem sortByKey_two_bucket {α : Type} (k : α → Int) (l : List α)
    (hk : ∀ x ∈ l, k x = 0 ∨ k x = 1) :
    sortByKey k l
      = l.filter (fun x => k x == 0) ++ l.filter (fun x => k x == 1) := by
  have hmem : ∀ x ∈ sortByKey k l, k x = 0 ∨ k x = 1 :=
    fun x hx => hk x ((sortByKey_perm k l).mem_iff.mp hx)
  have hdec := sorted_zero_one_decomposition (sortByKey_sorted k l) hmem
  rw [hdec, filter_sortByKey, filter_sortByKey]

/-- On a genuine map (pairwise distinct names), one deletion step of the
for-loop equals filtering out the zero-database entries with the given
name. -/
theorem deleteEngineIfEmpty_eq_filter (conns : List DataSourceConnection)
    (e : String) (h : (conns.map (fun c => c.name)).Nodup) :
    deleteEngineIfEmpty conns e
      = conns.filter (fun c => !(c.name == e && c.databases.length == 0)) := by
  unfold deleteEngineIfEmpty
  cases hfind : conns.find? (fun c => c.name == e) with
  | none =>
    have hall : ∀ c ∈ conns, ¬(c.name = e) := by
      intro c hc
      have := List.find?_eq_none.mp hfind c hc
      simpa using this
    symm
    rw [List.filter_eq_self]
    intro c hc
    simp [hall c hc]
  | some c0 =>
    have hc0mem : c0 ∈ conns := List.mem_of_find?_eq_some hfind
    have hc0name : c0.name = e := by
      have := List.find?_some hfind
      simpa using this
    have huniq : ∀ x ∈ conns, x.name = e → x = c0 := by
      intro x hx hxe
      exact List.inj_on_of_nodup_map h hx hc0mem (by rw [hxe, hc0name])
    dsimp only
    by_cases hemp : c0.databases.length = 0
    · rw [if_pos hemp]
      apply List.filter_congr
      intro x hx
      by_cases hxe : x.name = e
      · have hx0 : x = c0 := huniq x hx hxe
        subst hx0
        simp [bne, hxe, hemp]
      · simp [bne, hxe]
    · rw [if_neg hemp]
      symm
      rw [List.filter_eq_self]
      intro x hx
      by_cases hxe : x.name = e
      · have hx0 : x = c0 := huniq x hx hxe
        subst hx0
        simp [hxe, hemp]
      · simp [hxe]

/-- On a genuine map (pairwise distinct names), the deletion loop of
`connectionsAtom` equals the `visibleConnections` filter. -/
theorem deleteEmptyInternalEngines_eq_filter :
    ∀ (internalEngines : List String) (conns : List DataSourceConnection),
      (conns.map (fun c => c.name)).Nodup →
      deleteEmptyInternalEngines internalEngines conns
        = visibleConnections internalEngines conns := by
  intro ie
  induction ie with
  | nil =>
    intro conns _
    unfold deleteEmptyInternalEngines visibleConnections
    simp [isInternalEngine]
  | cons e rest ih =>
    intro conns h
    unfold deleteEmptyInternalEngines
    rw [List.foldl_cons]
    rw [show List.foldl deleteEngineIfEmpty (deleteEngineIfEmpty conns e) rest
        = deleteEmptyInternalEngines rest (deleteEngineIfEmpty conns e) from
      rfl]
    rw [deleteEngineIfEmpty_eq_filter conns e h]
    have h2 : (((conns.filter
        (fun c => !(c.name == e && c.databases.length == 0))).map
        (fun c => c.name)).Nodup) :=
      h.sublist ((List.filter_sublist conns).map (fun c => c.name))
    rw [ih _ h2]
    unfold visibleConnections
    rw [List.filter_filter]
    apply List.filter_congr
    intro c _
    simp only [isInternalEngine, List.contains_cons]
    cases h1 : (c.name == e) <;>
      cases h2 : (rest.contains c.name) <;>
        cases h3 : (c.databases.length == 0) <;> simp [h1, h2, h3]

/-- The connection sort key takes only the values 0 and 1. -/
theorem internalLastKey_zero_or_one (ie : List String)
    (c : DataSourceConnection) :
    internalLastKey ie c = 0 ∨ internalLastKey ie c = 1 := by
  unfold internalLastKey
  by_cases hb : isInternalEngine ie c = true <;> simp [hb]

/-- A table with a falsy declaring variable has sort key -1. -/
theorem tableSortKey_of_noVariable (vars : List Variable)
    (cellIds : List String) {t : DataTable}
    (h : hasNoVariableName t = true) : tableSortKey vars cellIds t = -1 := by
  unfold hasNoVariableName at h
  unfold tableSortKey
  cases hv : t.variable_name with
  | none => rfl
  | some vn =>
    rw [hv] at h
    dsimp only at h ⊢
    rw [if_pos h]

/-- A table with a truthy declaring variable has a non-negative sort key. -/
theorem tableSortKey_nonneg (vars : List Variable)
    (cellIds : List String) {t : DataTable}
    (h : hasNoVariableName t = false) : 0 ≤ tableSortKey vars cellIds t := by
  unfold hasNoVariableName at h
  unfold tableSortKey
  cases hv : t.variable_name with
  | none => rw [hv] at h; cases h
  | some vn =>
    rw [hv] at h
    dsimp only at h ⊢
    rw [if_neg (by simp [h])]
    split
    · norm_num
    · split
      · norm_num
      · split
        · norm_num
        · omega

/-- An invariant preserved by every step holds after any event fold. -/
theorem foldl_invariant {σ ε : Type} (step : σ → ε → σ) (P : σ → Prop)
    (hstep : ∀ s e, P s → P (step s e)) :
    ∀ (events : List ε) (s : σ), P s → P (events.foldl step s) := by
  intro events
  induction events with
  | nil => intro s hs; exact hs
  | cons e rest ih =>
    intro s hs
    rw [List.foldl_cons]
    exact ih _ (hstep s e hs)

/-- Every `TableList` step preserves the fetch-count bound: at most one
fetch, and none before the requested flag is set. -/
theorem tableListStep_count_bound (hasCtx : Bool) (s : TableListState)
    (e : TableListEvent)
    (hq : s.fetchCount ≤ 1 ∧ (s.tablesRequested = false → s.fetchCount = 0)) :
    (tableListStep hasCtx s e).fetchCount ≤ 1
    ∧ ((tableListStep hasCtx s e).tablesRequested = false →
        (tableListStep hasCtx s e).fetchCount = 0) := by
  cases e with
  | render =>
    unfold tableListStep tableListRender
    by_cases hg : (s.tables.length == 0 && hasCtx && !s.tablesRequested) = true
    · rw [if_pos hg]
      have hreq : s.tablesRequested = false := by
        simp only [Bool.and_eq_true, Bool.not_eq_true'] at hg
        exact hg.2
      have hc0 : s.fetchCount = 0 := hq.2 hreq
      simp [hc0]
    · rw [if_neg hg]
      exact hq
  | resolve resp =>
    unfold tableListStep tableListResolve
    dsimp only
    by_cases hl : s.tablesLoading = true
    · rw [if_pos hl]
      cases resp <;> simpa using hq
    · rw [if_neg hl]
      exact hq

/-- Once a `TableList` fetch was issued, the requested flag stays set and
the fetch count stays at one: a completed fetch is never re-issued. -/
theorem tableListStep_requested_frozen (hasCtx : Bool) (s : TableListState)
    (e : TableListEvent)
    (hr : s.tablesRequested = true ∧ s.fetchCount = 1) :
    (tableListStep hasCtx s e).tablesRequested = true
    ∧ (tableListStep hasCtx s e).fetchCount = 1 := by
  cases e with
  | render =>
    unfold tableListStep tableListRender
    have hg : (s.tables.length == 0 && hasCtx && !s.tablesRequested) = false := by
      simp [hr.1]
    rw [if_neg (by simp [hg])]
    exact hr
  | resolve resp =>
    unfold tableListStep tableListResolve
    dsimp only
    by_cases hl : s.tablesLoading = true
    · rw [if_pos hl]
      cases resp <;> simpa using hr
    · rw [if_neg hl]
      exact hr

/-- The `DatasetTableItem` effect preserves the fetch-count bound. -/
theorem tableItemRender_count_bound (hasCtx : Bool) (s : TableItemState)
    (hq : s.fetchCount ≤ 1
      ∧ (s.tableDetailsRequested = false → s.fetchCount = 0)) :
    (tableItemRender hasCtx s).fetchCount ≤ 1
    ∧ ((tableItemRender hasCtx s).tableDetailsRequested = false →
        (tableItemRender hasCtx s).fetchCount = 0) := by
  unfold tableItemRender
  by_cases hg : (s.isExpanded && s.columns.length == 0 && hasCtx
      && !s.tableDetailsRequested) = true
  · rw [if_pos hg]
    have hreq : s.tableDetailsRequested = false := by
      simp only [Bool.and_eq_true, Bool.not_eq_true'] at hg
      exact hg.2
    have hc0 : s.fetchCount = 0 := hq.2 hreq
    simp [hc0]
  · rw [if_neg hg]
    exact hq

/-- Every `DatasetTableItem` step preserves the fetch-count bound. -/
theorem tableItemStep_count_bound (hasCtx : Bool) (s : TableItemState)
    (e : TableItemEvent)
    (hq : s.fetchCount ≤ 1
      ∧ (s.tableDetailsRequested = false → s.fetchCount = 0)) :
    (tableItemStep hasCtx s e).fetchCount ≤ 1
    ∧ ((tableItemStep hasCtx s e).tableDetailsRequested = false →
        (tableItemStep hasCtx s e).fetchCount = 0) := by
  cases e with
  | toggle =>
    unfold tableItemStep
    exact tableItemRender_count_bound hasCtx _ (by simpa using hq)
  | render =>
    unfold tableItemStep
    exact tableItemRender_count_bound hasCtx _ hq
  | resolve resp =>
    unfold tableItemStep tableItemResolve
    dsimp only
    by_cases hl : s.detailsLoading = true
    · rw [if_pos hl]
      cases resp <;> simpa using hq
    · rw [if_neg hl]
      exact hq

/-- C5: tables with no declaring variable sort first; unresolvable variables
and unknown declaration positions sort as position 0; all others sort by the
ordinal position of their declaring cell; the sort is stable.  Concretely,
[A(var x, cell 2), B(no var), C(var y, cell 1)] sorts to [B, C, A]; in
general the output is a permutation of the input, is sorted by
`tableSortKey`, preserves the input order at every fixed key (stability),
never places a table with a declaring variable before one without, and the
key is -1 exactly on falsy declaring variables, 0 when the variable cannot
be resolved or its declaring cell is not in the cell order. -/
theorem tables_sorted_by_declaration_order :
    sortedTables exVariables exCellOrder [exTableA, exTableB, exTableC]
      = [exTableB, exTableC, exTableA]
    ∧ (∀ (vars : List Variable) (cellIds : List String)
        (tables : List DataTable),
        (sortedTables vars cellIds tables).Perm tables
        ∧ (sortedTables vars cellIds tables).Pairwise
            (fun a b =>
              tableSortKey vars cellIds a ≤ tableSortKey vars cellIds b)
        ∧ (∀ v : Int, (sortedTables vars cellIds tables).filter
              (fun t => tableSortKey vars cellIds t == v)
            = tables.filter (fun t => tableSortKey vars cellIds t == v))
        ∧ (sortedTables vars cellIds tables).Pairwise
            (fun a b =>
              hasNoVariableName b = true → hasNoVariableName a = true))
    ∧ (∀ (vars : List Variable) (cellIds : List String) (t : DataTable),
        (hasNoVariableName t = true → tableSortKey vars cellIds t = -1)
        ∧ (hasNoVariableName t = false → 0 ≤ tableSortKey vars cellIds t))
    ∧ (∀ (vars : List Variable) (cellIds : List String) (t : DataTable)
        (vn : String),
        t.variable_name = some vn → (vn == "") = false →
        vars.find? (fun v => v.name == vn) = none →
        tableSortKey vars cellIds t = 0)
    ∧ (∀ (vars : List Variable) (cellIds : List String) (t : DataTable)
        (vn : String) (declVar : Variable) (firstCell : String),
        t.variable_name = some vn → (vn == "") = false →
        vars.find? (fun v => v.name == vn) = some declVar →
        declVar.declaredBy.head? = some firstCell →
        cellIds.findIdx? (fun c => c == firstCell) = none →
        tableSortKey vars cellIds t = 0) := by
  refine ⟨by decide, ?_, ?_, ?_, ?_⟩
  · intro vars cellIds tables
    refine ⟨sortByKey_perm _ _, sortByKey_sorted _ _,
      fun v => filter_sortByKey _ _ _, ?_⟩
    refine (sortByKey_sorted (tableSortKey vars cellIds) tables).imp ?_
    intro a b hab hb
    by_cases ha : hasNoVariableName a = true
    · exact ha
    · exfalso
      have h1 := tableSortKey_of_noVariable vars cellIds hb
      have h2 := tableSortKey_nonneg vars cellIds (by simpa using ha)
      omega
  · intro vars cellIds t
    exact ⟨tableSortKey_of_noVariable vars cellIds,
      tableSortKey_nonneg vars cellIds⟩
  · intro vars cellIds t vn hvn hne hfind
    unfold tableSortKey
    rw [hvn]
    dsimp only
    rw [if_neg (by simp [hne]), hfind]
  · intro vars cellIds t vn declVar firstCell hvn hne hfind hhead hidx
    unfold tableSortKey
    rw [hvn]
    dsimp only
    rw [if_neg (by simp [hne]), hfind]
    dsimp only
    rw [hhead]
    dsimp only
    rw [hidx]

/-- Witness for C5: a table whose declaring variable resolves to no known
variable gets sort key 0. -/
theorem tables_sorted_by_declaration_order_witness :
    tableSortKey [] [] ⟨"Z", "local", "", some "q", []⟩ = 0 :=
  tables_sorted_by_declaration_order.2.2.2.1 [] []
    ⟨"Z", "local", "", some "q", []⟩ "q" rfl rfl rfl

/-- C6: on any connections map (pairwise distinct names), the visible list
drops every internal engine with zero databases entirely, and the remaining
connections appear with all user-defined ones (in original relative order)
before all internal ones (in original relative order). -/
theorem userConnections_before_internal (ie : List String)
    (conns : List DataSourceConnection)
    (h : (conns.map (fun c => c.name)).Nodup) :
    connectionsList ie conns
      = (visibleConnections ie conns).filter
          (fun c => !isInternalEngine ie c)
        ++ (visibleConnections ie conns).filter
          (fun c => isInternalEngine ie c)
    ∧ ∀ c ∈ conns, isInternalEngine ie c = true → c.databases = [] →
        c ∉ connectionsList ie conns := by
  have hL : connectionsList ie conns
      = sortByKey (internalLastKey ie) (visibleConnections ie conns) := by
    rw [connectionsList, deleteEmptyInternalEngines_eq_filter ie conns h]
  constructor
  · rw [hL, sortByKey_two_bucket _ _
      (fun x _ => internalLastKey_zero_or_one ie x)]
    congr 1 <;> apply List.filter_congr <;> intro c _ <;>
      by_cases hb : isInternalEngine ie c = true <;>
        simp [internalLastKey, hb]
  · intro c hc hint hdb hmem
    rw [hL] at hmem
    have hv : c ∈ visibleConnections ie conns :=
      (sortByKey_perm _ _).mem_iff.mp hmem
    have hp := (List.mem_filter.mp hv).2
    rw [hint, hdb] at hp
    simp at hp

/-- Witness for C6: a zero-database internal engine does not appear in the
visible connection list. -/
theorem userConnections_before_internal_witness :
    internalEmptyConn ∉ connectionsList ["eng"] [internalEmptyConn, userConn] :=
  (userConnections_before_internal ["eng"] [internalEmptyConn, userConn]
      (by decide)).2 internalEmptyConn (by decide) (by decide) rfl

/-- C8: on any connections map (pairwise distinct names), the
visible-connections derivation is idempotent: applying it to its own output
returns that output unchanged. -/
theorem visibleConnections_idempotent (ie : List String)
    (conns : List DataSourceConnection)
    (h : (conns.map (fun c => c.name)).Nodup) :
    connectionsList ie (connectionsList ie conns)
      = connectionsList ie conns := by
  have hL : connectionsList ie conns
      = sortByKey (internalLastKey ie) (visibleConnections ie conns) := by
    rw [connectionsList, deleteEmptyInternalEngines_eq_filter ie conns h]
  have hperm : (connectionsList ie conns).Perm (visibleConnections ie conns) := by
    rw [hL]; exact sortByKey_perm _ _
  have hnodupL : ((connectionsList ie conns).map (fun c => c.name)).Nodup := by
    have hvis : ((visibleConnections ie conns).map (fun c => c.name)).Nodup :=
      h.sublist ((List.filter_sublist conns).map (fun c => c.name))
    exact ((hperm.map (fun c => c.name)).nodup_iff).mpr hvis
  rw [connectionsList, deleteEmptyInternalEngines_eq_filter _ _ hnodupL]
  have hself : visibleConnections ie (connectionsList ie conns)
      = connectionsList ie conns := by
    unfold visibleConnections
    rw [List.filter_eq_self]
    intro c hc
    have hv : c ∈ visibleConnections ie conns := hperm.mem_iff.mp hc
    exact (List.mem_filter.mp hv).2
  rw [hself]
  apply sortByKey_of_sorted
  rw [hL]
  exact sortByKey_sorted _ _

/-- Witness for C8 at a concrete three-connection map. -/
theorem visibleConnections_idempotent_witness :
    connectionsList ["eng", "eng2"]
        (connectionsList ["eng", "eng2"]
          [internalNonEmptyConn, userConn, internalEmptyConn])
      = connectionsList ["eng", "eng2"]
          [internalNonEmptyConn, userConn, internalEmptyConn] :=
  visibleConnections_idempotent ["eng", "eng2"]
    [internalNonEmptyConn, userConn, internalEmptyConn] (by decide)

/-- C10: evaluating the visible-connections derivation never mutates the
shared connections map (the deletions act on a copy), and its value is the
derived list. -/
theorem connections_derivation_frame (internalEngines : List String)
    (shared : List DataSourceConnection) :
    (connectionsAtomRun internalEngines shared).2 = shared
    ∧ (connectionsAtomRun internalEngines shared).1
      = connectionsList internalEngines shared :=
  ⟨rfl, rfl⟩

/-- C3: at most one fetch is ever issued per node instance.  A `TableList`
mounted over an empty table list with a context issues exactly one fetch on
its first render and never another, whatever re-renders and resolutions
follow; over any event sequence at all, both `TableList` and
`DatasetTableItem` issue at most one fetch, because the requested flag is
set synchronously (atomically with the count increment) before the awaited
call. -/
theorem fetch_issued_at_most_once :
    (∀ rest : List TableListEvent,
      (runTableList true (TableListEvent.render :: rest)).fetchCount = 1)
    ∧ (∀ (hasCtx : Bool) (events : List TableListEvent),
        (runTableList hasCtx events).fetchCount ≤ 1)
    ∧ (∀ (hasCtx : Bool) (events : List TableItemEvent),
        (runTableItem hasCtx events).fetchCount ≤ 1) := by
  refine ⟨?_, ?_, ?_⟩
  · intro rest
    have h1 : runTableList true (TableListEvent.render :: rest)
        = rest.foldl (tableListStep true)
            (tableListStep true initTableList TableListEvent.render) := by
      rw [runTableList, List.foldl_cons]
    rw [h1]
    have hinit : (tableListStep true initTableList
        TableListEvent.render).tablesRequested = true
        ∧ (tableListStep true initTableList
            TableListEvent.render).fetchCount = 1 := by decide
    exact (foldl_invariant (tableListStep true)
      (fun s => s.tablesRequested = true ∧ s.fetchCount = 1)
      (fun s e hs => tableListStep_requested_frozen true s e hs)
      rest _ hinit).2
  · intro hasCtx events
    exact (foldl_invariant (tableListStep hasCtx)
      (fun s => s.fetchCount ≤ 1
        ∧ (s.tablesRequested = false → s.fetchCount = 0))
      (fun s e hs => tableListStep_count_bound hasCtx s e hs)
      events initTableList ⟨by decide, fun _ => rfl⟩).1
  · intro hasCtx events
    exact (foldl_invariant (tableItemStep hasCtx)
      (fun s => s.fetchCount ≤ 1
        ∧ (s.tableDetailsRequested = false → s.fetchCount = 0))
      (fun s e hs => tableItemStep_count_bound hasCtx s e hs)
      events initTableItem ⟨by decide, fun _ => rfl⟩).1

/-- C4 counterexample: a fetch that resolves with an empty table array does
NOT produce the claimed node-local failure state: the error stays `none`
(the node falls through to its plain empty state, with loading cleared and
an empty table list). -/
theorem empty_table_array_no_failure_counterexample :
    (runTableList true
        [TableListEvent.render, TableListEvent.resolve (some [])]).error
      = none
    ∧ (runTableList true
        [TableListEvent.render, TableListEvent.resolve (some [])]).tables
      = []
    ∧ (runTableList true
        [TableListEvent.render,
          TableListEvent.resolve (some [])]).tablesLoading = false := by
  decide

/-- C4 (amended): a fetch resolving with the table data absent produces the
"No tables available" failure state, while a fetch resolving with an empty
table array produces no failure (the node shows its empty state); in both
cases the requested flag remains set and any further renders never re-issue
the fetch. -/
theorem empty_fetch_response_states :
    ((runTableList true
        [TableListEvent.render, TableListEvent.resolve none]).error
      = some "No tables available")
    ∧ (runTableList true
        [TableListEvent.render, TableListEvent.resolve none]).tablesRequested
      = true
    ∧ (∀ rest : List TableListEvent,
        (runTableList true
          ([TableListEvent.render, TableListEvent.resolve none]
            ++ rest)).fetchCount = 1)
    ∧ (runTableList true
        [TableListEvent.render, TableListEvent.resolve (some [])]).error
      = none
    ∧ (runTableList true
        [TableListEvent.render,
          TableListEvent.resolve (some [])]).tablesRequested = true
    ∧ (∀ rest : List TableListEvent,
        (runTableList true
          ([TableListEvent.render, TableListEvent.resolve (some [])]
            ++ rest)).fetchCount = 1) := by
  refine ⟨by decide, by decide, ?_, by decide, by decide, ?_⟩
  · intro rest
    rw [runTableList, List.foldl_append]
    have hpre : (runTableList true
        [TableListEvent.render, TableListEvent.resolve none]).tablesRequested
          = true
        ∧ (runTableList true
          [TableListEvent.render, TableListEvent.resolve none]).fetchCount
          = 1 := by decide
    exact (foldl_invariant (tableListStep true)
      (fun s => s.tablesRequested = true ∧ s.fetchCount = 1)
      (fun s e hs => tableListStep_requested_frozen true s e hs)
      rest _ hpre).2
  · intro rest
    rw [runTableList, List.foldl_append]
    have hpre : (runTableList true
        [TableListEvent.render,
          TableListEvent.resolve (some [])]).tablesRequested = true
        ∧ (runTableList true
          [TableListEvent.render,
            TableListEvent.resolve (some [])]).fetchCount = 1 := by decide
    exact (foldl_invariant (tableListStep true)
      (fun s => s.tablesRequested = true ∧ s.fetchCount = 1)
      (fun s e hs => tableListStep_requested_frozen true s e hs)
      rest _ hpre).2

/-- C2 counterexample: a node manually expanded before a search keeps its
flag while the search is active, but turning the search off forces the flag
to false instead of restoring the manually set value (true). -/
theorem searchActive_off_collapses_counterexample :
    (runNode [NodeEvent.select]).1.isExpanded = true
    ∧ (runNode [NodeEvent.select, NodeEvent.setSearch true]).1.isExpanded
      = true
    ∧ (runNode [NodeEvent.select, NodeEvent.setSearch true,
        NodeEvent.setSearch false]).1.isExpanded = false := by
  decide

/-- C2 (amended): when the search-active signal turns on, the expanded flag
of every database and schema node is forced to true; when it turns back
off, the effect runs again and forces the flag to false (the prior manual
value is not restored); a manual select afterwards flips the flag again
(manual control resumes). -/
theorem searchActive_forces_expansion (events : List NodeEvent) :
    ((runNode events).2 = false →
      (runNode (events ++ [NodeEvent.setSearch true])).1.isExpanded = true)
    ∧ ((runNode events).2 = true →
      (runNode (events ++ [NodeEvent.setSearch false])).1.isExpanded
        = false)
    ∧ (runNode (events ++ [NodeEvent.select])).1.isExpanded
      = !(runNode events).1.isExpanded := by
  have key : ∀ e : NodeEvent,
      runNode (events ++ [e]) = nodeStep (runNode events) e := by
    intro e
    rw [runNode, runNode, List.foldl_append, List.foldl_cons, List.foldl_nil]
  refine ⟨?_, ?_, ?_⟩
  · intro h
    rw [key]
    unfold nodeStep
    rw [h]
    simp [onHasSearchChange]
  · intro h
    rw [key]
    unfold nodeStep
    rw [h]
    simp [onHasSearchChange]
  · rw [key]
    rfl

/-- Witness for C2 (amended): from a fresh mount with no search, turning
the search on expands the node. -/
theorem searchActive_forces_expansion_witness :
    (runNode ([] ++ [NodeEvent.setSearch true])).1.isExpanded = true :=
  (searchActive_forces_expansion []).1 rfl

/-- C1 counterexample: a table whose source kind is outside the handled set
but that has a SQL context does NOT hit the unreachable-variant assertion;
snippet generation returns the ordinary SQL snippet. -/
theorem unhandledSourceKind_withContext_returns_sql :
    getCode mysteryTable (some ctxUnderD)
      = Except.ok (sqlCode mysteryTable "*" (some ctxUnderD)) := rfl

/-- C1 (amended): for every table with no SQL context whose source kind is
outside the handled set (catalog, local, duckdb, connection), snippet
generation signals the fatal unreachable-variant assertion (`logNever`,
modelled from the spec) and aborts rather than returning an empty snippet
string; with a SQL context present such a table instead yields the SQL
snippet. -/
theorem unhandledSourceKind_fatal_of_noContext (table : DataTable)
    (h : table.source_type ∉ handledSourceTypes) :
    getCode table none
      = Except.error ("logNever: unhandled source_type "
          ++ table.source_type) := by
  simp only [handledSourceTypes, List.mem_cons, List.not_mem_nil, or_false,
    not_or] at h
  obtain ⟨h1, h2, h3, h4⟩ := h
  simp [getCode, h1, h2, h3, h4]

/-- Witness for C1 (amended) at a concrete unhandled source kind. -/
theorem unhandledSourceKind_fatal_witness :
    getCode mysteryTable none
      = Except.error ("logNever: unhandled source_type "
          ++ mysteryTable.source_type) :=
  unhandledSourceKind_fatal_of_noContext mysteryTable (by decide)

/-- C7: a catalog table named t under database d with a SQL context yields
the load-by-identifier call over the qualified identifier d.t, and a local
in-memory table named df without a SQL context yields the tabular-display
wrapper call over df. -/
theorem snippet_generation_examples :
    getCode catalogTableT (some ctxUnderD)
      = Except.ok "con.load_table(\"d.t\")"
    ∧ getCode localTableDf none = Except.ok "mo.ui.table(df)" := by
  constructor <;> rfl

/-- C9: the refresh spinner stays visible for at least the 500 ms floor:
whatever the request latency, at every instant before 500 ms the spinner is
still on (the clearing timeout is only scheduled at resolution, so the
spinner turns off at latency + 500). -/
theorem refresh_spinner_min_duration (latency t : Nat) (h : t < 500) :
    isSpinning latency t = true := by
  simp only [isSpinning, spinnerOffTime, decide_eq_true_eq]
  omega

/-- Witness for C9: with an instantaneous request the spinner is still on
at 499 ms. -/
theorem refresh_spinner_min_duration_witness : isSpinning 0 499 = true :=
  refresh_spinner_min_duration 0 499 (by decide)
